import Mathlib

/-!
Shallow embedding of the Nightscout dashboard/widget core pipeline
(`dashboard.py`, `widget.py`) and verification of its specification.

Modelling conventions:
* Python floats are modelled as exact rationals (`ℚ`); the real-valued
  exponential decay of the IOB fallback lives in `ℝ` (`Real.rpow`).
* Instants are rationals counting local-clock seconds (the code converts
  everything with `astimezone()` before use; time-zone conversion is the
  identity in this model, DST is not modelled).
* A heterogeneous JSON field is modelled by a small inductive recording
  exactly the distinctions the code makes: Python truthiness, `isinstance`
  numeric checks, and string-parse success/failure.
-/

namespace NightscoutCore

/-- A string-valued timestamp field (`created_at` / `timestamp` / `dateString`).
`falsy` covers a missing key, `None`, or an empty string (all falsy in the
`or`-chains of the source); `unparseable` is a non-empty string rejected by
`dateutil.parser.isoparse`; `parsed t` is a non-empty string parsing to the
instant `t` (naive strings are already assumed UTC by the source, so the
parse result is an absolute instant). -/
inductive StrTs where
  | falsy : StrTs
  | unparseable : StrTs
  | parsed (t : ℚ) : StrTs
deriving DecidableEq, Repr

/-- A numeric-or-other field (`mills` / `date` / `carbs` / `carb_input`).
`falsyN` covers a missing key, `None`, `0`, `""`; `truthyOther` is a truthy
non-numeric value (e.g. a non-empty string); `num v` is a numeric value
(for `num 0` use `falsyN`: `0` is falsy in Python and behaves identically
in every `or`-chain and `isinstance` check of the source). -/
inductive NumF where
  | falsyN : NumF
  | truthyOther : NumF
  | num (v : ℚ) : NumF
deriving DecidableEq, Repr

/-- Python truthiness of a `StrTs` field. -/
def StrTs.truthy : StrTs → Bool
  | .falsy => false
  | .unparseable => true
  | .parsed _ => true

/-- `dateutil.parser.isoparse` outcome of a `StrTs` field. -/
def StrTs.parse : StrTs → Option ℚ
  | .parsed t => some t
  | _ => none

/-- Python truthiness of a `NumF` field. -/
def NumF.truthy : NumF → Bool
  | .falsyN => false
  | .truthyOther => true
  | .num v => decide (v ≠ 0)

/-- The `isinstance(v, (int, float))` check on a `NumF` field. -/
def NumF.toNum : NumF → Option ℚ
  | .num v => some v
  | _ => none

/-- Python `a or b` on two `StrTs` fields. -/
def pyOrS (a b : StrTs) : StrTs := if a.truthy then a else b

/-- Python `a or b` on two `NumF` fields. -/
def pyOrN (a b : NumF) : NumF := if a.truthy then a else b

/-- A potential bolus-dose field (`insulin` / `insulinInUnits` / `amount` /
`units` / `value`).  `skip` covers a missing key or a value of any other
type; `numD v` is a numeric value; `strOk v` is a string whose
comma-to-period rewrite parses to the float `v`; `strBad` is a string the
parse rejects (the `except ValueError: pass` branch). -/
inductive DoseF where
  | skip : DoseF
  | numD (v : ℚ) : DoseF
  | strOk (v : ℚ) : DoseF
  | strBad : DoseF
deriving DecidableEq, Repr

/-- The value a single iteration of the dose-search loop would take from
this field, `none` meaning the loop moves on to the next key. -/
def DoseF.dose : DoseF → Option ℚ
  | .numD v => some v
  | .strOk v => some v
  | _ => none

/-- First `some` in a list of options: the `break`-on-first-hit semantics of
the dose-search loops in `split_events` and `_units`. -/
def firstSome : List (Option ℚ) → Option ℚ
  | [] => none
  | some v :: _ => some v
  | none :: rest => firstSome rest

/-- The optional `bolus` sub-dict of a treatment, with its `normal` /
`extended` / `immediate` entries (`some` = numeric value present). -/
structure BolusSub where
  normal : Option ℚ
  extended : Option ℚ
  immediate : Option ℚ
deriving DecidableEq, Repr

/-- A raw Nightscout treatment record, restricted to the fields the core
pipeline reads. -/
structure RawTreatment where
  eventType : Option String
  typ : Option String
  tags : List String
  created_at : StrTs
  timestamp : StrTs
  dateString : StrTs
  mills : NumF
  date : NumF
  duration : Option ℤ
  percent : Option ℚ
  absolute : Option ℚ
  carbs : NumF
  carb_input : NumF
  insulin : DoseF
  insulinInUnits : DoseF
  amount : DoseF
  units : DoseF
  value : DoseF
  bolus : Option BolusSub
deriving DecidableEq, Repr

/-- An all-absent treatment record, to build concrete records from. -/
def emptyTreatment : RawTreatment :=
  { eventType := none, typ := none, tags := []
    created_at := .falsy, timestamp := .falsy, dateString := .falsy
    mills := .falsyN, date := .falsyN
    duration := none, percent := none, absolute := none
    carbs := .falsyN, carb_input := .falsyN
    insulin := .skip, insulinInUnits := .skip, amount := .skip
    units := .skip, value := .skip, bolus := none }

/-- Python `str.lower()` restricted to ASCII (the source only ever compares
against ASCII constants). -/
def pyLower (s : String) : String := String.mk (s.toList.map Char.toLower)

/-- `leadsWith p l` : `l` starts with `p` (character lists). -/
def leadsWith : List Char → List Char → Bool
  | [], _ => true
  | _ :: _, [] => false
  | a :: as, b :: bs => a == b && leadsWith as bs

/-- `hasSub p l` : `p` occurs as a contiguous run inside `l`. -/
def hasSub (p : List Char) : List Char → Bool
  | [] => leadsWith p []
  | c :: cs => leadsWith p (c :: cs) || hasSub p cs

/-- Python `pat in s` on strings (substring containment). -/
def pyIn (pat s : String) : Bool := hasSub pat.toList s.toList

/-- Timestamp resolution of `split_events` (dashboard.py:267-279), also used
verbatim by `fallback_bolus_iob` (dashboard.py:457-469) and
`_fallback_bolus_iob` (widget.py:395-407): take the first truthy of
`created_at` / `timestamp` / `dateString`; if none is truthy, fall back to
the first truthy of `mills` / `date` interpreted as epoch milliseconds;
`none` means the record is dropped. -/
def resolveTsTreat (r : RawTreatment) : Option ℚ :=
  let raw := pyOrS r.created_at (pyOrS r.timestamp r.dateString)
  if raw.truthy then raw.parse
  else (pyOrN r.mills r.date).toNum.map (fun v => v / 1000)

/-- A raw glucose-entry record, restricted to the timestamp fields that
`fetch_entries` reads (dashboard.py:84-96). -/
structure RawEntry where
  dateString : StrTs
  created_at : StrTs
  date : NumF
deriving DecidableEq, Repr

/-- Timestamp resolution of `fetch_entries` (dashboard.py:84-96): first
truthy of `dateString` / `created_at`, epoch-ms `date` only when both are
falsy; `none` means the record is dropped. -/
def resolveTsEntry (e : RawEntry) : Option ℚ :=
  let raw := pyOrS e.dateString e.created_at
  if raw.truthy then raw.parse
  else e.date.toNum.map (fun v => v / 1000)

/-- The dose-search loop of `split_events` (dashboard.py:295-306): scan the
keys `insulin`, `insulinInUnits`, `amount`, `units`, `value` in order and
`break` at the first one holding a numeric value or a comma-decimal string
that parses; unparseable strings and non-numeric values fall through. -/
def findUnits (r : RawTreatment) : Option ℚ :=
  firstSome [r.insulin.dose, r.insulinInUnits.dose, r.amount.dose,
             r.units.dose, r.value.dose]

/-- The `_units` helper of `fallback_bolus_iob` (dashboard.py:435-450) and
`_fallback_bolus_iob` (widget.py:372-387): the same five-key search, then
the `bolus` sub-dict keys `normal` / `extended` / `immediate`. -/
def unitsFull (r : RawTreatment) : Option ℚ :=
  match findUnits r with
  | some v => some v
  | none =>
    match r.bolus with
    | some b => firstSome [b.normal, b.extended, b.immediate]
    | none => none

/-- Carb extraction of `split_events` (dashboard.py:291): `t.get("carbs") or
t.get("carb_input")`, then the `isinstance` numeric check. -/
def carbsVal (r : RawTreatment) : Option ℚ := (pyOrN r.carbs r.carb_input).toNum

/-- The `is_smb` heuristic of `split_events` (dashboard.py:309), on the
already-lowercased event type `et`, explicit type `tt` and tags. -/
def isSmb (et tt : String) (tags : List String) : Bool :=
  (tt == "smb") || pyIn "smb" tt || tags.any (fun tg => pyIn "smb" tg) ||
    pyIn "smb" et

/-- A classified temp-basal overlay as built by `split_events`
(dashboard.py:283-288): start instant (seconds), duration in minutes,
optional percent and absolute rate (`np.nan` modelled as `none`). -/
structure TempRec where
  start : ℚ
  duration : ℤ
  percent : Option ℚ
  absolute : Option ℚ
deriving DecidableEq, Repr

/-- The four lists returned by `split_events`: big (manual) boluses, mini
(SMB) boluses, carb intakes, temp-basal overlays.  Bolus and carb entries
are (instant, units/grams) pairs. -/
structure SplitResult where
  bolus_big : List (ℚ × ℚ)
  bolus_mini : List (ℚ × ℚ)
  carbs : List (ℚ × ℚ)
  temps : List TempRec
deriving DecidableEq, Repr

/-- Record classifier `split_events` (dashboard.py:258-314).  Per record:
resolve the timestamp (drop on failure); an event type equal to
"temp basal" after lowercasing yields exactly one `TempRec`; otherwise a
positive numeric carb value yields a `CarbIntake` and, independently, a
positive first-found dose yields a mini bolus when the SMB heuristic fires
and a big bolus otherwise.  List order follows record order. -/
def split_events : List RawTreatment → SplitResult
  | [] => ⟨[], [], [], []⟩
  | r :: rest =>
    let out := split_events rest
    match resolveTsTreat r with
    | none => out
    | some τ =>
      let et := pyLower (r.eventType.getD "")
      let tt := pyLower (r.typ.getD "")
      let tgs := r.tags.map pyLower
      if et = "temp basal" then
        { out with temps := ⟨τ, r.duration.getD 0, r.percent, r.absolute⟩ :: out.temps }
      else
        let out1 :=
          match carbsVal r with
          | some g => if 0 < g then { out with carbs := (τ, g) :: out.carbs } else out
          | none => out
        match findUnits r with
        | some u =>
          if 0 < u then
            if isSmb et tt tgs then
              { out1 with bolus_mini := (τ, u) :: out1.bolus_mini }
            else
              { out1 with bolus_big := (τ, u) :: out1.bolus_big }
          else out1
        | none => out1

/-- Local time-of-day in whole seconds of an instant (`local.hour * 3600 +
local.minute * 60 + local.second` in `current_plan_basal`,
dashboard.py:202): sub-second part dropped, day length 86400 s. -/
def todSecs (t : ℚ) : ℤ := (⌊t⌋ : ℤ) % 86400

/-- Dictionary lookup `plan[k]` on the association-list model of the basal
plan (keys are distinct by construction from a Python dict). -/
def planGet (plan : List (ℤ × ℚ)) (k : ℤ) : ℚ := ((plan.lookup k).getD 0)

/-- The ascending scan with `break` of `current_plan_basal`
(dashboard.py:205-209): remember the value of every key `≤ secs`, stop at
the first larger key. -/
def scanKeys (plan : List (ℤ × ℚ)) (secs : ℤ) : Option ℚ → List ℤ → Option ℚ
  | cur, [] => cur
  | cur, k :: ks =>
    if k ≤ secs then scanKeys plan secs (some (planGet plan k)) ks else cur

/-- Planned-rate lookup `current_plan_basal` (dashboard.py:198-212): `none`
on an empty plan, else the value of the greatest segment key at most the
query's local time-of-day, wrapping to the last (greatest) key when no key
qualifies. -/
def current_plan_basal (plan : List (ℤ × ℚ)) (t : ℚ) : Option ℚ :=
  if plan.isEmpty then none
  else
    let secs := todSecs t
    let keys := List.insertionSort (fun a b => a ≤ b) (plan.map Prod.fst)
    match scanKeys plan secs none keys with
    | some v => some v
    | none => some (planGet plan (keys.getLast?.getD 0))

/-- `plan_at` inside `build_basal_series` (dashboard.py:322-323):
`current_plan_basal(plan, t) or 0.0`. -/
def planAt (plan : List (ℤ × ℚ)) (t : ℚ) : ℚ := (current_plan_basal plan t).getD 0

/-- One row of the basal series before the `is_temp` column: instant,
planned rate, actual rate. -/
structure BRow where
  t : ℚ
  plan : ℚ
  actual : ℚ
deriving DecidableEq, Repr

/-- Number of points of `pd.date_range(start, end, freq="1min")`: instants
`start + 60 k` with `start + 60 k ≤ end`. -/
def gridLen (s e : ℚ) : ℕ := if e < s then 0 else (⌊(e - s) / 60⌋).toNat + 1

/-- The minute grid itself. -/
def gridTimes (s e : ℚ) : List ℚ :=
  (List.range (gridLen s e)).map (fun k : ℕ => s + 60 * (k : ℚ))

/-- Effect of one overlay on one row of `build_basal_series`
(dashboard.py:328-336): inside the half-open window
`[start, start + duration min)` overwrite `actual` with the absolute rate
when non-NaN, else with `plan * percent / 100` when percent is non-NaN;
rows outside the window and overlays with both fields NaN leave the row
unchanged. -/
def overlayRow (tp : TempRec) (row : BRow) : BRow :=
  if tp.start ≤ row.t ∧ row.t < tp.start + 60 * (tp.duration : ℚ) then
    match tp.absolute with
    | some a => { row with actual := a }
    | none =>
      match tp.percent with
      | some p => { row with actual := row.plan * p / 100 }
      | none => row
  else row

/-- One column-wise overlay pass of `build_basal_series`: the source
mutates the whole `actual` column under the window mask of one overlay. -/
def applyTemp (tp : TempRec) (rows : List BRow) : List BRow :=
  rows.map (overlayRow tp)

/-- The overwrite `build_basal_series` performs on the actual rate of a
single minute `τ` with planned rate `p` and current actual rate `cur`,
phrased as a value transform (this is the per-overlay overwrite the spec
describes for one minute). -/
def overlayStep (tp : TempRec) (τ p cur : ℚ) : ℚ :=
  if tp.start ≤ τ ∧ τ < tp.start + 60 * (tp.duration : ℚ) then
    match tp.absolute with
    | some a => a
    | none =>
      match tp.percent with
      | some q => p * q / 100
      | none => cur
  else cur

/-- Basal reconciler `build_basal_series` (dashboard.py:317-338): build the
minute grid, initialise `actual := plan`, apply the overlays in list order,
then append the `is_temp` flag `actual ≠ plan` (the `astype(int)` column,
`true` standing for `1`). -/
def build_basal_series (plan : List (ℤ × ℚ)) (temps : List TempRec)
    (s e : ℚ) : List (BRow × Bool) :=
  (temps.foldl (fun acc tp => applyTemp tp acc)
      ((gridTimes s e).map (fun τ => ⟨τ, planAt plan τ, planAt plan τ⟩))).map
    (fun row => (row, row.actual ≠ row.plan))

/-- A glucose reading of the entries frame: instant (seconds) and mmol/L
value; `fetch_entries` returns them sorted ascending by time. -/
structure Entry where
  t : ℚ
  mmol : ℚ
deriving DecidableEq, Repr, Inhabited

/-- Least-squares slope of `np.polyfit(x, y, 1)[0]` over a point list, in
exact arithmetic: `(n Σxy − Σx Σy) / (n Σx² − (Σx)²)`.  A degenerate fit
(all x equal, denominator zero) is modelled as slope `0` (ℚ division by
zero); no claim exercises that case. -/
def lsSlope (pts : List (ℚ × ℚ)) : ℚ :=
  let n : ℚ := pts.length
  let sx := (pts.map Prod.fst).sum
  let sy := (pts.map Prod.snd).sum
  let sxy := (pts.map (fun p => p.1 * p.2)).sum
  let sxx := (pts.map (fun p => p.1 * p.1)).sum
  (n * sxy - sx * sy) / (n * sxx - sx * sx)

/-- Python `entries.tail(5)`: the last `min(5, length)` rows. -/
def lastN (n : ℕ) (l : List Entry) : List Entry := l.drop (l.length - n)

/-- Window selection of `compute_arrow_from_slope` (dashboard.py:168-173):
rows of the trailing 15 minutes (inclusive lower bound), falling back to
the last 5 rows when that window holds fewer than 2 rows. -/
def arrowWindow (entries : List Entry) : List Entry :=
  match entries.getLast? with
  | none => []
  | some lastE =>
    let df := entries.filter (fun en => lastE.t - 900 ≤ en.t)
    if df.length < 2 then lastN 5 entries else df

/-- Fallback trend arrow `compute_arrow_from_slope` (dashboard.py:164-195):
`none` below 3 readings; otherwise fit a slope over the selected window
(x shifted by its first abscissa, exactly as `x - x[0]` in the source),
scale to mmol/L per 15 min, and map through the threshold chain. -/
def compute_arrow_from_slope (entries : List Entry) : Option String :=
  if entries.length < 3 then none
  else
    let df := arrowWindow entries
    if df.length < 2 then none
    else
      let x0 := (df.headI).t
      let pts := df.map (fun en => (en.t - x0, en.mmol))
      let slope15 := lsSlope pts * (15 * 60)
      if slope15 ≥ 0.5 then some "↑"
      else if 0.2 ≤ slope15 ∧ slope15 < 0.5 then some "↗"
      else if -0.2 < slope15 ∧ slope15 < 0.2 then some "→"
      else if -0.5 < slope15 ∧ slope15 ≤ -0.2 then some "↘"
      else if slope15 ≤ -0.5 then some "↓"
      else none

/-- The spec's arrow classification by slope interval (mmol/L per 15 min):
`≥ 0.5` up, `[0.2, 0.5)` 45°-up, `(−0.2, 0.2)` flat, `(−0.5, −0.2]`
45°-down, `≤ −0.5` down. -/
def specArrowClass (s : ℚ) : String :=
  if 0.5 ≤ s then "↑"
  else if 0.2 ≤ s then "↗"
  else if -0.2 < s then "→"
  else if -0.5 < s then "↘"
  else "↓"

/-- DIA window of the IOB fallback, minutes (dashboard.py:62,
widget.py:369). -/
def DIA_MINUTES : ℚ := 300

/-- Decay half-life of the IOB fallback, minutes (dashboard.py:63,
widget.py:370). -/
def T_HALF : ℚ := 60

/-- One loop iteration of the IOB fallback (dashboard.py:453-473,
widget.py:391-411): first-found dose via `unitsFull`, skip unless positive
(`u is None or u <= 0` / `not u or u <= 0` agree for all doses); resolve
the timestamp, skip on failure; add `dose * 0.5 ^ (age_min / T_HALF)` when
`0 ≤ age_min ≤ DIA_MINUTES`. -/
noncomputable def iobStep (now : ℚ) (total : ℝ) (r : RawTreatment) : ℝ :=
  match unitsFull r with
  | none => total
  | some u =>
    if u ≤ 0 then total
    else
      match resolveTsTreat r with
      | none => total
      | some τ =>
        let age : ℚ := (now - τ) / 60
        if 0 ≤ age ∧ age ≤ DIA_MINUTES then
          total + (u : ℝ) * (1 / 2 : ℝ) ^ (((age / T_HALF : ℚ)) : ℝ)
        else total

/-- Fallback bolus IOB, `fallback_bolus_iob` (dashboard.py:434-474) and
`_fallback_bolus_iob` (widget.py:365-412); the two bodies are identical up
to the name of the evaluation instant (global `NOW` vs `now_utc`), passed
here as `now`. -/
noncomputable def fallback_bolus_iob (now : ℚ) (treatments : List RawTreatment) : ℝ :=
  treatments.foldl (iobStep now) 0

/-- The per-record contribution the spec describes for the fallback bolus
IOB: `dose × 0.5^(age/60)` for a record with a positive dose, a resolvable
timestamp and age between 0 and DIA inclusive; `0` otherwise. -/
noncomputable def iobContribution (now : ℚ) (r : RawTreatment) : ℝ :=
  match unitsFull r with
  | none => 0
  | some u =>
    if u ≤ 0 then 0
    else
      match resolveTsTreat r with
      | none => 0
      | some τ =>
        let age : ℚ := (now - τ) / 60
        if 0 ≤ age ∧ age ≤ DIA_MINUTES then
          (u : ℝ) * (1 / 2 : ℝ) ^ (((age / T_HALF : ℚ)) : ℝ)
        else 0

/-! Concrete records used by the counterexamples and witnesses below. -/

/-- A "Temp Basal" treatment that also carries 20 g of carbs and 1.5 U of
insulin. -/
def rTempCarb : RawTreatment :=
  { emptyTreatment with
      eventType := some "Temp Basal", created_at := .parsed 1000
      carbs := .num 20, insulin := .numD (3 / 2), percent := some 50 }

/-- A plain treatment with 20 g of carbs and 1.5 U of insulin. -/
def rCarbBolus : RawTreatment :=
  { emptyTreatment with
      created_at := .parsed 1000, carbs := .num 20, insulin := .numD (3 / 2) }

/-- An SMB treatment of 0.3 U. -/
def rSmb : RawTreatment :=
  { emptyTreatment with
      eventType := some "SMB", created_at := .parsed 1000
      insulin := .numD (3 / 10) }

/-- A treatment whose highest-priority dose key `insulin` holds `0` while
`amount` holds the positive dose `2.0`. -/
def rZeroFirst : RawTreatment :=
  { emptyTreatment with
      created_at := .parsed 1000, insulin := .numD 0, amount := .numD 2 }

/-- A treatment whose `insulin` string does not parse and whose `amount`
holds `2.0`. -/
def rStrBad : RawTreatment :=
  { emptyTreatment with
      created_at := .parsed 1000, insulin := .strBad, amount := .numD 2 }

/-- A treatment with an unparseable string timestamp and a valid epoch-ms
`date` field. -/
def rBadTs : RawTreatment :=
  { emptyTreatment with created_at := .unparseable, date := .num 1700000000000 }

/-- An entries record with an unparseable string timestamp and a valid
epoch-ms `date` field. -/
def eBadTs : RawEntry := ⟨.unparseable, .falsy, .num 1700000000000⟩

/-- A 1.0 U dose exactly one hour in the past when evaluated at instant 0. -/
def rHourOld : RawTreatment :=
  { emptyTreatment with created_at := .parsed (-3600), insulin := .numD 1 }

/-- A 1.0 U dose exactly 300 minutes in the past when evaluated at
instant 0. -/
def rDiaEdge : RawTreatment :=
  { emptyTreatment with created_at := .parsed (-18000), insulin := .numD 1 }

/-- A 1.0 U dose one hour in the future when evaluated at instant 0. -/
def rFuture : RawTreatment :=
  { emptyTreatment with created_at := .parsed 3600, insulin := .numD 1 }

/-- A 1.0 U dose 600 minutes in the past when evaluated at instant 0. -/
def rVeryOld : RawTreatment :=
  { emptyTreatment with created_at := .parsed (-36000), insulin := .numD 1 }

/-! ## Shared helper lemmas -/

/-- A temp-basal record at the head of the treatment list contributes
exactly one TempRec and nothing else. -/
lemma split_events_tempBasal (r : RawTreatment) (rest : List RawTreatment)
    (τ : ℚ) (hts : resolveTsTreat r = some τ)
    (het : pyLower (r.eventType.getD "") = "temp basal") :
    split_events (r :: rest) =
      { split_events rest with
        temps := ⟨τ, r.duration.getD 0, r.percent, r.absolute⟩ ::
          (split_events rest).temps } := by
  simp [split_events, hts, het]

/-- Concrete evaluation of the classifier on the carb-and-insulin-carrying
temp-basal record. -/
lemma split_rTempCarb :
    split_events [rTempCarb] = ⟨[], [], [], [⟨1000, 0, some 50, none⟩]⟩ := by
  have h := split_events_tempBasal rTempCarb [] 1000 (by decide) (by decide)
  simpa [split_events] using h

/-! ## Claim C9: temp-basal records emit only a TempBasal -/

/-- Claim C9: every treatment record whose event type equals "temp basal"
case-insensitively contributes exactly one temp-basal overlay to the
classifier output and no carb or bolus event, regardless of any carb or
insulin fields it carries. -/
theorem claim_C9_temp_basal_exclusive (r : RawTreatment) (rest : List RawTreatment)
    (τ : ℚ) (hts : resolveTsTreat r = some τ)
    (het : pyLower (r.eventType.getD "") = "temp basal") :
    split_events (r :: rest) =
      { split_events rest with
        temps := ⟨τ, r.duration.getD 0, r.percent, r.absolute⟩ ::
          (split_events rest).temps } :=
  split_events_tempBasal r rest τ hts het

/-- Witness for C9: a "Temp Basal" record carrying 20 g carbs and 1.5 U
insulin yields one TempRec and nothing else. -/
theorem claim_C9_witness :
    split_events [rTempCarb] = ⟨[], [], [], [⟨1000, 0, some 50, none⟩]⟩ := by
  have h := claim_C9_temp_basal_exclusive rTempCarb [] 1000 (by decide) (by decide)
  simpa [split_events] using h

/-! ## Claim C3: timestamp normalization preference order -/

/-- Counterexample to C3: a record whose string timestamp is present but
unparseable and whose epoch-ms `date` field is valid is dropped (resolution
yields `none`) by both the treatments and the entries pipelines, against
the claim that it is kept using the epoch-ms instant. -/
theorem claim_C3_counterexample :
    resolveTsTreat rBadTs = none ∧ resolveTsEntry eBadTs = none ∧
    rBadTs.date.toNum = some 1700000000000 ∧
    eBadTs.date.toNum = some 1700000000000 := by decide

/-- Claim C3 (amended): timestamp normalization prefers the string field;
it falls back to the epoch-ms field only when every string field is falsy;
a truthy but unparseable string field drops the record even when a valid
epoch-ms field is present. -/
theorem claim_C3_string_precedence :
    (∀ (r : RawTreatment) (t : ℚ),
        pyOrS r.created_at (pyOrS r.timestamp r.dateString) = .parsed t →
        resolveTsTreat r = some t) ∧
    (∀ r : RawTreatment,
        pyOrS r.created_at (pyOrS r.timestamp r.dateString) = .unparseable →
        resolveTsTreat r = none) ∧
    (∀ r : RawTreatment,
        pyOrS r.created_at (pyOrS r.timestamp r.dateString) = .falsy →
        resolveTsTreat r = (pyOrN r.mills r.date).toNum.map (fun v => v / 1000)) ∧
    (∀ (e : RawEntry) (t : ℚ),
        pyOrS e.dateString e.created_at = .parsed t → resolveTsEntry e = some t) ∧
    (∀ e : RawEntry,
        pyOrS e.dateString e.created_at = .unparseable → resolveTsEntry e = none) ∧
    (∀ e : RawEntry,
        pyOrS e.dateString e.created_at = .falsy →
        resolveTsEntry e = e.date.toNum.map (fun v => v / 1000)) := by
  refine ⟨?_, ?_, ?_, ?_, ?_, ?_⟩ <;> intro x h <;>
    first
      | (intro hx; simp [resolveTsTreat, resolveTsEntry, hx, StrTs.truthy, StrTs.parse])
      | simp [resolveTsTreat, resolveTsEntry, h, StrTs.truthy, StrTs.parse]

/-- Witness for C3 (amended): concrete records exercising the three cases
of the treatments branch and the parsed case of the entries branch. -/
theorem claim_C3_witness :
    resolveTsTreat rTempCarb = some 1000 ∧
    resolveTsTreat rBadTs = none ∧
    resolveTsTreat emptyTreatment =
      (pyOrN emptyTreatment.mills emptyTreatment.date).toNum.map (fun v => v / 1000) ∧
    resolveTsEntry ⟨.parsed 5, .falsy, .num 99⟩ = some 5 :=
  ⟨claim_C3_string_precedence.1 rTempCarb 1000 (by decide),
   claim_C3_string_precedence.2.1 rBadTs (by decide),
   claim_C3_string_precedence.2.2.1 emptyTreatment (by decide),
   claim_C3_string_precedence.2.2.2.1 ⟨.parsed 5, .falsy, .num 99⟩ 5 (by decide)⟩

/-! ## Claim C4: bolus-dose search -/

/-- Counterexample to C4: a record holding `0` under the highest-priority
key `insulin` and the positive dose `2.0` under `amount` yields no bolus
event at all, against the claim that any positive dose among the five keys
yields a bolus. -/
theorem claim_C4_counterexample :
    (split_events [rZeroFirst]).bolus_big = [] ∧
    (split_events [rZeroFirst]).bolus_mini = [] ∧
    rZeroFirst.amount.dose = some 2 ∧ (0 : ℚ) < 2 := by decide

/-- Claim C4 (amended): the dose search stops at the first of the keys
`insulin`, `insulinInUnits`, `amount`, `units`, `value` holding a numeric
value or a parseable comma-decimal string, regardless of sign; the record
yields a bolus event exactly when that first parseable value is positive,
and a record with no parseable dose yields none. -/
theorem claim_C4_first_parseable_dose :
    (∀ (r : RawTreatment) (τ : ℚ), resolveTsTreat r = some τ →
        pyLower (r.eventType.getD "") ≠ "temp basal" →
        (split_events [r]).bolus_big ++ (split_events [r]).bolus_mini =
          (match findUnits r with
           | some u => if 0 < u then [(τ, u)] else []
           | none => [])) ∧
    (∀ (r : RawTreatment) (v : ℚ), r.insulin.dose = some v → findUnits r = some v) := by
  constructor
  · intro r τ hts het
    rcases hc : carbsVal r with _ | g <;> rcases hu : findUnits r with _ | u <;>
      simp [split_events, hts, het, hc, hu] <;> split_ifs <;> simp
  · intro r v h
    simp [findUnits, firstSome, h]

/-- Witness for C4 (amended): an unparseable `insulin` string falls through
to `amount` and yields the bolus; a parseable `insulin` value of zero is
taken as the search result even though `amount` is positive. -/
theorem claim_C4_witness :
    (split_events [rStrBad]).bolus_big ++ (split_events [rStrBad]).bolus_mini =
      [(1000, 2)] ∧
    findUnits rZeroFirst = some 0 := by
  constructor
  · have h := claim_C4_first_parseable_dose.1 rStrBad 1000 (by decide) (by decide)
    have h2 : findUnits rStrBad = some 2 := by decide
    rw [h, h2]
    norm_num
  · exact claim_C4_first_parseable_dose.2 rZeroFirst 0 (by decide)

/-! ## Claim C5: simultaneous carb and bolus emission -/

/-- Counterexample to C5: a record carrying both a positive carb value and
a positive insulin dose but classified as temp basal emits neither a
CarbIntake nor a bolus, against the claim's unrestricted quantification
over treatment records. -/
theorem claim_C5_counterexample :
    (split_events [rTempCarb]).carbs = [] ∧
    (split_events [rTempCarb]).bolus_big = [] ∧
    (split_events [rTempCarb]).bolus_mini = [] ∧
    carbsVal rTempCarb = some 20 ∧ findUnits rTempCarb = some (3 / 2) := by
  refine ⟨?_, ?_, ?_, by decide, rfl⟩ <;> simp [split_rTempCarb]

/-- Claim C5 (amended): for records with a resolvable timestamp that are
not classified temp basal, a positive carb value and a positive dose yield
both a CarbIntake and a bolus in the same pass; the bolus is a MicroBolus
exactly when the lowercased explicit type, any lowercased tag, or the
lowercased event type contains "smb" (the code's extra `type == "smb"`
test is subsumed by containment), and a ManualBolus otherwise; the SMB
record of the spec example yields a MicroBolus and no CarbIntake. -/
theorem claim_C5_carb_and_bolus :
    (∀ (r : RawTreatment) (τ g v : ℚ),
        resolveTsTreat r = some τ →
        pyLower (r.eventType.getD "") ≠ "temp basal" →
        carbsVal r = some g → 0 < g → findUnits r = some v → 0 < v →
        (split_events [r]).carbs = [(τ, g)] ∧
        (isSmb (pyLower (r.eventType.getD "")) (pyLower (r.typ.getD ""))
            (r.tags.map pyLower) = true →
          (split_events [r]).bolus_mini = [(τ, v)] ∧ (split_events [r]).bolus_big = []) ∧
        (isSmb (pyLower (r.eventType.getD "")) (pyLower (r.typ.getD ""))
            (r.tags.map pyLower) = false →
          (split_events [r]).bolus_big = [(τ, v)] ∧ (split_events [r]).bolus_mini = [])) ∧
    (∀ (et tt : String) (tags : List String),
        isSmb et tt tags =
          (pyIn "smb" tt || tags.any (fun tg => pyIn "smb" tg) || pyIn "smb" et)) ∧
    split_events [rSmb] = ⟨[], [(1000, 3 / 10)], [], []⟩ := by
  refine ⟨?_, ?_, ?_⟩
  · intro r τ g v hts het hc hg hu hv
    cases hs : isSmb (pyLower (r.eventType.getD "")) (pyLower (r.typ.getD ""))
        (r.tags.map pyLower) <;>
      simp [split_events, hts, het, hc, hg, hu, hv, hs]
  · intro et tt tags
    cases h : tt == "smb" with
    | false => simp [isSmb, h]
    | true =>
      have htt : tt = "smb" := eq_of_beq h
      subst htt
      have hps : pyIn "smb" "smb" = true := rfl
      simp [isSmb, hps]
  · have h30 : (0 : ℚ) < 3 / 10 := by norm_num
    have hts : resolveTsTreat rSmb = some 1000 := by decide
    have het : pyLower (rSmb.eventType.getD "") = "smb" := by decide
    have hc : carbsVal rSmb = none := by decide
    have hu : findUnits rSmb = some (3 / 10) := rfl
    have hs : isSmb "smb" (pyLower (rSmb.typ.getD ""))
        (rSmb.tags.map pyLower) = true := by decide
    simp [split_events, hts, het, hc, hu, h30, hs]

/-- Witness for C5 (amended): the record `{carbs: 20, insulin: 1.5}` yields
both a CarbIntake of 20 g and a manual bolus of 1.5 U. -/
theorem claim_C5_witness :
    (split_events [rCarbBolus]).carbs = [(1000, 20)] ∧
    (split_events [rCarbBolus]).bolus_big = [(1000, 3 / 2)] ∧
    (split_events [rCarbBolus]).bolus_mini = [] := by
  have h := claim_C5_carb_and_bolus.1 rCarbBolus 1000 20 (3 / 2) (by decide) (by decide)
      (by decide) (by norm_num) rfl (by norm_num)
  have hs : isSmb (pyLower (rCarbBolus.eventType.getD ""))
      (pyLower (rCarbBolus.typ.getD "")) (rCarbBolus.tags.map pyLower) = false := by decide
  exact ⟨h.1, (h.2.2 hs).1, (h.2.2 hs).2⟩

/-! ## Claim C2: the overridden flag -/

/-- Counterexample to C2: an overlay with absolute rate `1 + 10⁻⁷` over a
plan rate of `1` differs from the plan by a positive amount not exceeding
`10⁻⁶`, yet the series flags the minute as overridden — the code compares
with exact inequality, not the claimed `1e-6` tolerance. -/
theorem claim_C2_counterexample :
    build_basal_series [(0, 1)] [⟨0, 30, none, some (10000001 / 10000000)⟩] 0 0 =
      [(⟨0, 1, 10000001 / 10000000⟩, true)] ∧
    |(10000001 / 10000000 : ℚ) - 1| ≤ 1 / 1000000 ∧
    (10000001 / 10000000 : ℚ) - 1 ≠ 0 := by
  refine ⟨?_, ?_, by norm_num⟩
  · norm_num [build_basal_series, gridTimes, gridLen, List.range_succ, planAt,
      current_plan_basal, todSecs, scanKeys, planGet, applyTemp, overlayRow]
  · rw [show (10000001 / 10000000 : ℚ) - 1 = 1 / 10000000 by norm_num,
      abs_of_nonneg (by norm_num)]
    norm_num

/-- Claim C2 (amended): the `is_temp` flag of a minute produced by
`build_basal_series` is true exactly when its actual rate differs from its
plan rate at all (exact inequality, no tolerance). -/
theorem claim_C2_exact_inequality_flag (plan : List (ℤ × ℚ)) (temps : List TempRec)
    (s e : ℚ) :
    ∀ p ∈ build_basal_series plan temps s e, p.2 = true ↔ p.1.actual ≠ p.1.plan := by
  intro p hp
  unfold build_basal_series at hp
  simp only [List.mem_map] at hp
  obtain ⟨row, _, rfl⟩ := hp
  simp [decide_eq_true_iff]

/-- Witness for C2 (amended): the flag of the single minute of a concrete
overridden series. -/
theorem claim_C2_witness :
    ((((⟨0, 1, 1 / 5⟩ : BRow), true) : BRow × Bool).2 = true ↔
      (⟨0, 1, 1 / 5⟩ : BRow).actual ≠ (⟨0, 1, 1 / 5⟩ : BRow).plan) :=
  claim_C2_exact_inequality_flag [(0, 1)] [⟨0, 30, none, some (1 / 5)⟩] 0 0
    (⟨0, 1, 1 / 5⟩, true)
    (by norm_num [build_basal_series, gridTimes, gridLen, List.range_succ, planAt,
      current_plan_basal, todSecs, scanKeys, planGet, applyTemp, overlayRow])

/-! ## Claims C6 and C10: fallback bolus IOB -/

/-- One fold step of the IOB fallback adds exactly the per-record
contribution. -/
lemma iobStep_eq (now : ℚ) (a : ℝ) (r : RawTreatment) :
    iobStep now a r = a + iobContribution now r := by
  unfold iobStep iobContribution
  cases h : unitsFull r with
  | none => simp
  | some u =>
    by_cases hu : u ≤ 0
    · simp [hu]
    · simp only [hu, if_false]
      cases ht : resolveTsTreat r with
      | none => simp
      | some τ =>
        by_cases hc : 0 ≤ (now - τ) / 60 ∧ (now - τ) / 60 ≤ DIA_MINUTES
        · simp [hc]
        · simp [hc]

/-- The IOB fold from any initial total. -/
lemma fallback_foldl (now : ℚ) :
    ∀ (l : List RawTreatment) (a : ℝ),
      l.foldl (iobStep now) a = a + (l.map (iobContribution now)).sum := by
  intro l
  induction l with
  | nil => intro a; simp
  | cons r t ih =>
    intro a
    simp only [List.foldl_cons, List.map_cons, List.sum_cons, iobStep_eq, ih]
    ring

/-- The fallback bolus IOB is the sum of per-record contributions. -/
lemma fallback_eq_sum (now : ℚ) (l : List RawTreatment) :
    fallback_bolus_iob now l = (l.map (iobContribution now)).sum := by
  simpa [fallback_bolus_iob] using fallback_foldl now l 0

/-- A future-dated dose contributes nothing. -/
lemma contrib_rFuture : iobContribution 0 rFuture = 0 := by
  have h1 : unitsFull rFuture = some 1 := rfl
  have h2 : resolveTsTreat rFuture = some 3600 := by decide
  simp only [iobContribution, h1, h2]
  norm_num

/-- A dose aged exactly 300 minutes contributes `2⁻⁵` per unit. -/
lemma contrib_rDiaEdge : iobContribution 0 rDiaEdge = 1 / 32 := by
  have h1 : unitsFull rDiaEdge = some 1 := rfl
  have h2 : resolveTsTreat rDiaEdge = some (-18000) := by decide
  simp only [iobContribution, h1, h2]
  have hage : ((0 : ℚ) - -18000) / 60 = 300 := by norm_num
  rw [hage]
  have hcond : (0 : ℚ) ≤ 300 ∧ (300 : ℚ) ≤ DIA_MINUTES := by norm_num [DIA_MINUTES]
  rw [if_pos hcond]
  have hexp : ((300 / T_HALF : ℚ) : ℝ) = ((5 : ℕ) : ℝ) := by norm_num [T_HALF]
  rw [hexp, Real.rpow_natCast]
  norm_num

/-- Counterexample to C6: on the list holding a 1 U future dose (age −60,
so "age at most DIA" holds under the claim's literal sum) and a 1 U dose
aged exactly 300 minutes (which the claim's "age ≥ 300 contributes 0"
clause excludes), the code returns `1/32` — not `0` (the reading where
both are excluded) and not `2 + 1/32` (the literal-sum reading including
the future dose). -/
theorem claim_C6_counterexample :
    fallback_bolus_iob 0 [rFuture, rDiaEdge] = 1 / 32 ∧
    (1 / 32 : ℝ) ≠ 0 ∧ (1 / 32 : ℝ) ≠ 2 + 1 / 32 := by
  refine ⟨?_, by norm_num, by norm_num⟩
  rw [fallback_eq_sum]
  simp [contrib_rFuture, contrib_rDiaEdge]

/-- Claim C6 (amended): the fallback bolus IOB equals the sum, over
treatment records with a positive first-found dose, a resolvable
timestamp, and age between 0 and DIA (300 min) inclusive, of
`dose × 0.5^(age_minutes/60)`; records strictly older than DIA contribute
0; a single 1.0 U dose aged exactly 60 minutes yields an IOB within 0.01
of 0.5. -/
theorem claim_C6_fallback_decay :
    (∀ (now : ℚ) (l : List RawTreatment),
        fallback_bolus_iob now l = (l.map (iobContribution now)).sum) ∧
    (∀ (now : ℚ) (r : RawTreatment) (τ : ℚ), resolveTsTreat r = some τ →
        DIA_MINUTES < (now - τ) / 60 → iobContribution now r = 0) ∧
    |fallback_bolus_iob 0 [rHourOld] - 0.5| ≤ 0.01 := by
  refine ⟨fallback_eq_sum, ?_, ?_⟩
  · intro now r τ hts hold
    unfold iobContribution
    cases h : unitsFull r with
    | none => rfl
    | some u =>
      by_cases hu : u ≤ 0
      · simp [hu]
      · simp only [hu, if_false, hts]
        have : ¬((0 : ℚ) ≤ (now - τ) / 60 ∧ (now - τ) / 60 ≤ DIA_MINUTES) := by
          intro hcon
          exact absurd hold (not_lt.mpr hcon.2)
        simp [this]
  · have h1 : unitsFull rHourOld = some 1 := rfl
    have h2 : resolveTsTreat rHourOld = some (-3600) := by decide
    rw [fallback_eq_sum]
    simp only [List.map_cons, List.map_nil, List.sum_cons, List.sum_nil, iobContribution,
      h1, h2]
    have hage : ((0 : ℚ) - -3600) / 60 = 60 := by norm_num
    rw [hage]
    have hcond : (0 : ℚ) ≤ 60 ∧ (60 : ℚ) ≤ DIA_MINUTES := by norm_num [DIA_MINUTES]
    rw [if_pos hcond]
    have hexp : ((60 / T_HALF : ℚ) : ℝ) = 1 := by norm_num [T_HALF]
    rw [hexp, Real.rpow_one]
    norm_num

/-- Witness for C6 (amended): the sum characterization at a concrete list,
and a 600-minute-old dose contributing zero. -/
theorem claim_C6_witness :
    fallback_bolus_iob 0 [rVeryOld] = ([rVeryOld].map (iobContribution 0)).sum ∧
    iobContribution 0 rVeryOld = 0 :=
  ⟨claim_C6_fallback_decay.1 0 [rVeryOld],
   claim_C6_fallback_decay.2.1 0 rVeryOld (-36000) (by decide)
     (by norm_num [DIA_MINUTES])⟩

/-- Claim C10: a treatment record whose resolved timestamp lies strictly
in the future contributes exactly 0 to the fallback bolus IOB. -/
theorem claim_C10_future_dose_zero (now : ℚ) (r : RawTreatment)
    (rest : List RawTreatment) (τ : ℚ)
    (hts : resolveTsTreat r = some τ) (hfut : now < τ) :
    fallback_bolus_iob now (r :: rest) = fallback_bolus_iob now rest := by
  have hc : iobContribution now r = 0 := by
    unfold iobContribution
    cases h : unitsFull r with
    | none => rfl
    | some u =>
      by_cases hu : u ≤ 0
      · simp [hu]
      · simp only [hu, if_false, hts]
        have hneg : (now - τ) / 60 < 0 :=
          div_neg_of_neg_of_pos (by linarith) (by norm_num)
        have hnc : ¬((0 : ℚ) ≤ (now - τ) / 60 ∧ (now - τ) / 60 ≤ DIA_MINUTES) := by
          intro hcon
          linarith [hcon.1]
        simp [hnc]
  rw [fallback_eq_sum, fallback_eq_sum]
  simp [hc]

/-- Witness for C10: a 1 U dose dated one hour after the evaluation
instant leaves the fallback IOB unchanged. -/
theorem claim_C10_witness :
    fallback_bolus_iob 0 [rFuture] = fallback_bolus_iob 0 [] :=
  claim_C10_future_dose_zero 0 rFuture [] 3600 (by decide) (by norm_num)

/-! ## Claim C7: fallback trend arrow -/

/-- The threshold chain of `compute_arrow_from_slope` (dashboard.py:183-192)
always produces an arrow, and it is the spec's interval classification. -/
lemma specArrow_chain (s : ℚ) :
    (if s ≥ 0.5 then some "↑"
     else if 0.2 ≤ s ∧ s < 0.5 then some "↗"
     else if -0.2 < s ∧ s < 0.2 then some "→"
     else if -0.5 < s ∧ s ≤ -0.2 then some "↘"
     else if s ≤ -0.5 then some "↓"
     else none) = some (specArrowClass s) := by
  unfold specArrowClass
  split_ifs <;> first | rfl | (exfalso; simp_all)

/-- Length of the last-5 fallback window. -/
lemma lastN_length (n : ℕ) (l : List Entry) : (lastN n l).length = min n l.length := by
  simp [lastN]
  omega

/-- With at least 3 readings the selected window always holds at least 2
rows, so the guard `len(x) < 2` never fires. -/
lemma arrowWindow_len (entries : List Entry) (h3 : 3 ≤ entries.length) :
    2 ≤ (arrowWindow entries).length := by
  unfold arrowWindow
  cases hl : entries.getLast? with
  | none =>
    rw [List.getLast?_eq_none_iff] at hl
    simp [hl] at h3
  | some lastE =>
    by_cases hd : (entries.filter (fun en => lastE.t - 900 ≤ en.t)).length < 2
    · simp only [hd, if_true]
      have := lastN_length 5 entries
      omega
    · simp only [hd, if_false]
      omega

/-- Claim C7: fewer than 3 readings yield no arrow; with at least 3
readings the arrow is exactly the spec's interval classification of the
least-squares slope over the selected window scaled to mmol/L per 15 min;
when the trailing 15-minute window holds fewer than 2 readings the window
falls back to the last 5 readings; and the synthetic series rising exactly
0.5 mmol/L over 15 minutes yields the "up" arrow (boundary inclusive). -/
theorem claim_C7_trend_arrow :
    (∀ entries : List Entry, entries.length < 3 →
        compute_arrow_from_slope entries = none) ∧
    (∀ entries : List Entry, 3 ≤ entries.length →
        compute_arrow_from_slope entries =
          some (specArrowClass (lsSlope ((arrowWindow entries).map
            (fun en => (en.t - (arrowWindow entries).headI.t, en.mmol))) * (15 * 60)))) ∧
    (∀ (entries : List Entry) (lastE : Entry), entries.getLast? = some lastE →
        (entries.filter (fun en => lastE.t - 900 ≤ en.t)).length < 2 →
        arrowWindow entries = lastN 5 entries) ∧
    compute_arrow_from_slope [⟨0, 5⟩, ⟨450, 5 + 1 / 4⟩, ⟨900, 5 + 1 / 2⟩] = some "↑" := by
  refine ⟨?_, ?_, ?_, ?_⟩
  · intro entries h
    unfold compute_arrow_from_slope
    rw [if_pos h]
  · intro entries h3
    have h2 := arrowWindow_len entries h3
    unfold compute_arrow_from_slope
    rw [if_neg (by omega)]
    simp only
    rw [if_neg (by omega)]
    exact specArrow_chain _
  · intro entries lastE hl hd
    unfold arrowWindow
    rw [hl]
    simp only [hd, if_true]
  · norm_num [compute_arrow_from_slope, arrowWindow, lastN, lsSlope, List.filter]

/-- Witness for C7: a 2-reading series yields no arrow, and the concrete
0.5-boundary series yields "up". -/
theorem claim_C7_witness :
    compute_arrow_from_slope [⟨0, 5⟩, ⟨450, 5⟩] = none ∧
    compute_arrow_from_slope [⟨0, 5⟩, ⟨450, 5 + 1 / 4⟩, ⟨900, 5 + 1 / 2⟩] = some "↑" :=
  ⟨claim_C7_trend_arrow.1 _ (by norm_num), claim_C7_trend_arrow.2.2.2⟩

/-! ## Claim C8: planned-rate lookup -/

/-- The scan loop returns its accumulator when every remaining key exceeds
the query time (the loop `break`s at the first larger key). -/
lemma scanKeys_none (plan : List (ℤ × ℚ)) (secs : ℤ) (cur : Option ℚ)
    (ks : List ℤ) (h : ∀ k ∈ ks, secs < k) : scanKeys plan secs cur ks = cur := by
  cases ks with
  | nil => rfl
  | cons k ks' =>
    unfold scanKeys
    rw [if_neg (not_le.mpr (h k (List.mem_cons_self k ks')))]

/-- On a sorted key list the scan returns the value of the greatest key at
most the query time. -/
lemma scanKeys_max (plan : List (ℤ × ℚ)) (secs : ℤ) :
    ∀ (ks : List ℤ), ks.Sorted (· ≤ ·) → ∀ (cur : Option ℚ) (k : ℤ),
      k ∈ ks → k ≤ secs → (∀ k' ∈ ks, k' ≤ secs → k' ≤ k) →
      scanKeys plan secs cur ks = some (planGet plan k) := by
  intro ks
  induction ks with
  | nil => intro _ cur k hk; exact absurd hk (List.not_mem_nil k)
  | cons a ks' ih =>
    intro hs cur k hk hkle hmax
    rcases List.sorted_cons.mp hs with ⟨hb, hs'⟩
    by_cases ha : a ≤ secs
    · unfold scanKeys
      rw [if_pos ha]
      by_cases hex : ∃ k'' ∈ ks', k'' ≤ secs
      · obtain ⟨k'', hk''m, hk''le⟩ := hex
        have hkmem : k ∈ ks' := by
          rcases List.mem_cons.mp hk with rfl | h'
          · have h1 : k'' ≤ k := hmax k'' (List.mem_cons_of_mem _ hk''m) hk''le
            have h2 : k ≤ k'' := hb k'' hk''m
            have : k'' = k := le_antisymm h1 h2
            rwa [← this]
          · exact h'
        exact ih hs' (some (planGet plan a)) k hkmem hkle
          (fun k' hk' hk'le => hmax k' (List.mem_cons_of_mem _ hk') hk'le)
      · push_neg at hex
        rw [scanKeys_none plan secs _ ks' hex]
        have hka : k = a := by
          rcases List.mem_cons.mp hk with rfl | h'
          · rfl
          · exact absurd hkle (not_le.mpr (hex k h'))
        rw [hka]
    · exfalso
      rcases List.mem_cons.mp hk with rfl | h'
      · exact ha hkle
      · exact ha (le_trans (hb k h') hkle)

/-- Every element of a `≤`-sorted integer list is at most its last
element. -/
lemma sorted_le_getLast :
    ∀ (l : List ℤ), l.Sorted (· ≤ ·) → ∀ a ∈ l, ∀ (h : l ≠ []), a ≤ l.getLast h := by
  intro l
  induction l with
  | nil => simp
  | cons b l' ih =>
    intro hs a ha h
    rcases List.sorted_cons.mp hs with ⟨hb, hs'⟩
    cases l' with
    | nil =>
      rcases List.mem_cons.mp ha with rfl | h'
      · simp [List.getLast]
      · exact absurd h' (List.not_mem_nil a)
    | cons c l'' =>
      rw [List.getLast_cons (List.cons_ne_nil c l'')]
      rcases List.mem_cons.mp ha with rfl | h'
      · exact hb _ (List.getLast_mem (List.cons_ne_nil c l''))
      · exact ih hs' a h' (List.cons_ne_nil c l'')

/-- A one-segment profile of rate 1 at time-of-day 0 always plans 1. -/
lemma planAt_single (τ : ℚ) : planAt [(0, 1)] τ = 1 := by
  have h0 : (0 : ℤ) ≤ todSecs τ := Int.emod_nonneg _ (by norm_num)
  simp [planAt, current_plan_basal, List.insertionSort, List.orderedInsert,
    scanKeys, planGet, h0]

/-- Claim C8: on a non-empty profile the lookup returns the rate of the
segment with the greatest time-of-day at most the query's time-of-day,
wrapping to the greatest (last) segment when the query precedes every
segment; consequently a single 24-hour segment of 1.0 U/h with no overlays
produces a series whose plan and actual rates are constantly 1.0 with the
overridden flag false everywhere. -/
theorem claim_C8_plan_lookup :
    (∀ (plan : List (ℤ × ℚ)) (t : ℚ) (k : ℤ),
        k ∈ plan.map Prod.fst → k ≤ todSecs t →
        (∀ k' ∈ plan.map Prod.fst, k' ≤ todSecs t → k' ≤ k) →
        current_plan_basal plan t = some (planGet plan k)) ∧
    (∀ (plan : List (ℤ × ℚ)) (t : ℚ) (k : ℤ),
        (∀ k' ∈ plan.map Prod.fst, todSecs t < k') →
        k ∈ plan.map Prod.fst → (∀ k' ∈ plan.map Prod.fst, k' ≤ k) →
        current_plan_basal plan t = some (planGet plan k)) ∧
    (∀ (s e : ℚ) (p : BRow × Bool), p ∈ build_basal_series [(0, 1)] [] s e →
        p.1.plan = 1 ∧ p.1.actual = 1 ∧ p.2 = false) := by
  refine ⟨?_, ?_, ?_⟩
  · intro plan t k hmem hle hmax
    have hne : plan ≠ [] := by rintro rfl; simp at hmem
    have hsorted := @List.sorted_insertionSort ℤ (fun a b => a ≤ b) _ _ _ (plan.map Prod.fst)
    have hscan := scanKeys_max plan (todSecs t) _ hsorted none k
      ((List.mem_insertionSort _).mpr hmem) hle
      (fun k' hk' => hmax k' ((List.mem_insertionSort _).mp hk'))
    unfold current_plan_basal
    rw [if_neg (by simpa [List.isEmpty_iff] using hne)]
    simp only [hscan]
  · intro plan t k hall hmem hmax
    have hne : plan ≠ [] := by rintro rfl; simp at hmem
    have hkeysne : List.insertionSort (fun a b : ℤ => a ≤ b) (plan.map Prod.fst) ≠ [] := by
      intro hemp
      have hmem2 : k ∈ List.insertionSort (fun a b : ℤ => a ≤ b) (plan.map Prod.fst) :=
        (List.mem_insertionSort _).mpr hmem
      rw [hemp] at hmem2
      exact List.not_mem_nil k hmem2
    have hsorted := @List.sorted_insertionSort ℤ (fun a b => a ≤ b) _ _ _ (plan.map Prod.fst)
    have hscan := scanKeys_none plan (todSecs t) none
      (List.insertionSort (fun a b : ℤ => a ≤ b) (plan.map Prod.fst))
      (fun k' hk' => hall k' ((List.mem_insertionSort _).mp hk'))
    have hlast : (List.insertionSort (fun a b : ℤ => a ≤ b)
        (plan.map Prod.fst)).getLast?.getD 0 = k := by
      rw [List.getLast?_eq_getLast_of_ne_nil hkeysne]
      have hgl_mem := List.getLast_mem hkeysne
      have h1 : (List.insertionSort (fun a b : ℤ => a ≤ b) (plan.map Prod.fst)).getLast
          hkeysne ≤ k := hmax _ ((List.mem_insertionSort _).mp hgl_mem)
      have h2 : k ≤ (List.insertionSort (fun a b : ℤ => a ≤ b) (plan.map Prod.fst)).getLast
          hkeysne := sorted_le_getLast _ hsorted k ((List.mem_insertionSort _).mpr hmem)
          hkeysne
      simpa using le_antisymm h1 h2
    unfold current_plan_basal
    rw [if_neg (by simpa [List.isEmpty_iff] using hne)]
    simp only [hscan, hlast]
  · intro s e p hp
    unfold build_basal_series at hp
    simp only [List.foldl_nil, List.mem_map] at hp
    obtain ⟨row, ⟨τ, hτ, rfl⟩, rfl⟩ := hp
    simp [planAt_single]

/-- Witness for C8: a two-segment profile queried between and before its
segments, and one row of the constant single-segment series. -/
theorem claim_C8_witness :
    current_plan_basal [(3600, 1), (7200, 2)] 4000 =
      some (planGet [(3600, 1), (7200, 2)] 3600) ∧
    current_plan_basal [(3600, 1), (7200, 2)] 0 =
      some (planGet [(3600, 1), (7200, 2)] 7200) ∧
    (((⟨0, 1, 1⟩ : BRow), false).1.plan = 1 ∧
      ((⟨0, 1, 1⟩ : BRow), false).1.actual = 1 ∧
      ((⟨0, 1, 1⟩ : BRow), false).2 = false) :=
  ⟨claim_C8_plan_lookup.1 [(3600, 1), (7200, 2)] 4000 3600 (by decide) (by decide)
      (by decide),
   claim_C8_plan_lookup.2.1 [(3600, 1), (7200, 2)] 0 7200 (by decide) (by decide)
      (by decide),
   claim_C8_plan_lookup.2.2 0 0 ((⟨0, 1, 1⟩ : BRow), false)
      (by norm_num [build_basal_series, gridTimes, gridLen, List.range_succ, planAt,
        current_plan_basal, todSecs, scanKeys, planGet, applyTemp, overlayRow])⟩

/-! ## Claim C1: basal reconciler overlay semantics -/

/-- An overlay pass leaves the instant of every row unchanged. -/

lemma overlayRow_t (tp : TempRec) (row : BRow) : (overlayRow tp row).t = row.t := by
  unfold overlayRow
  by_cases h : tp.start ≤ row.t ∧ row.t < tp.start + 60 * (tp.duration : ℚ)
  · rw [if_pos h]
    cases tp.absolute with
    | some a => rfl
    | none =>
      cases tp.percent with
      | some p => rfl
      | none => rfl
  · rw [if_neg h]

/-- An overlay pass leaves the planned rate of every row unchanged. -/
lemma overlayRow_plan (tp : TempRec) (row : BRow) : (overlayRow tp row).plan = row.plan := by
  unfold overlayRow
  by_cases h : tp.start ≤ row.t ∧ row.t < tp.start + 60 * (tp.duration : ℚ)
  · rw [if_pos h]
    cases tp.absolute with
    | some a => rfl
    | none =>
      cases tp.percent with
      | some p => rfl
      | none => rfl
  · rw [if_neg h]

/-- An overlay pass rewrites the actual rate of every row by
`overlayStep`. -/
lemma overlayRow_actual (tp : TempRec) (row : BRow) :
    (overlayRow tp row).actual = overlayStep tp row.t row.plan row.actual := by
  unfold overlayRow overlayStep
  by_cases h : tp.start ≤ row.t ∧ row.t < tp.start + 60 * (tp.duration : ℚ)
  · rw [if_pos h, if_pos h]
    cases tp.absolute with
    | some a => rfl
    | none =>
      cases tp.percent with
      | some p => rfl
      | none => rfl
  · rw [if_neg h, if_neg h]

/-- The column-wise fold of overlay passes over the series equals the
row-wise map of per-row overlay folds: the code's mutate-whole-column-per-
overlay order and the per-minute fold order coincide. -/
lemma foldl_applyTemp :
    ∀ (temps : List TempRec) (rows : List BRow),
      temps.foldl (fun acc tp => applyTemp tp acc) rows =
        rows.map (fun row => temps.foldl (fun r tp => overlayRow tp r) row) := by
  intro temps
  induction temps with
  | nil => intro rows; simp
  | cons tp ts ih =>
    intro rows
    simp only [List.foldl_cons]
    rw [ih (applyTemp tp rows)]
    unfold applyTemp
    rw [List.map_map]
    rfl

/-- A per-row overlay fold keeps the instant and plan fields and folds
`overlayStep` over the actual rate. -/
lemma rowFold (temps : List TempRec) :
    ∀ row : BRow,
      (temps.foldl (fun r tp => overlayRow tp r) row).t = row.t ∧
      (temps.foldl (fun r tp => overlayRow tp r) row).plan = row.plan ∧
      (temps.foldl (fun r tp => overlayRow tp r) row).actual =
        temps.foldl (fun cur tp => overlayStep tp row.t row.plan cur) row.actual := by
  induction temps with
  | nil => intro row; exact ⟨rfl, rfl, rfl⟩
  | cons tp ts ih =>
    intro row
    simp only [List.foldl_cons]
    obtain ⟨ht, hp, ha⟩ := ih (overlayRow tp row)
    refine ⟨by rw [ht, overlayRow_t], by rw [hp, overlayRow_plan], ?_⟩
    simp only [ha, overlayRow_t, overlayRow_plan, overlayRow_actual]

/-- Membership in the minute grid: exactly the instants `s + 60 k`
(k : ℕ) not exceeding `e` — both endpoints included when the interval is a
whole number of minutes. -/
lemma mem_gridTimes (s e τ : ℚ) :
    τ ∈ gridTimes s e ↔ ∃ k : ℕ, τ = s + 60 * (k : ℚ) ∧ τ ≤ e := by
  unfold gridTimes
  rw [List.mem_map]
  constructor
  · rintro ⟨k, hk, rfl⟩
    rw [List.mem_range] at hk
    refine ⟨k, rfl, ?_⟩
    unfold gridLen at hk
    by_cases hes : e < s
    · rw [if_pos hes] at hk
      omega
    · rw [if_neg hes] at hk
      push_neg at hes
      have hfl : (0 : ℤ) ≤ ⌊(e - s) / 60⌋ := Int.floor_nonneg.mpr (div_nonneg (by linarith) (by norm_num))
      have h1 : k ≤ (⌊(e - s) / 60⌋).toNat := by omega
      have h2 : (k : ℤ) ≤ ⌊(e - s) / 60⌋ := by
        calc (k : ℤ) ≤ ((⌊(e - s) / 60⌋).toNat : ℤ) := by exact_mod_cast h1
          _ = ⌊(e - s) / 60⌋ := Int.toNat_of_nonneg hfl
      have h3 : ((k : ℤ) : ℚ) ≤ (e - s) / 60 := Int.le_floor.mp h2
      have h4 : (k : ℚ) * 60 ≤ e - s := (le_div_iff₀ (by norm_num)).mp (by exact_mod_cast h3)
      linarith
  · rintro ⟨k, rfl, hle⟩
    refine ⟨k, ?_, rfl⟩
    rw [List.mem_range]
    have hknn : (0 : ℚ) ≤ 60 * (k : ℚ) := by positivity
    unfold gridLen
    by_cases hes : e < s
    · exfalso
      linarith
    · rw [if_neg hes]
      push_neg at hes
      have h4 : (k : ℚ) * 60 ≤ e - s := by linarith
      have h3 : ((k : ℤ) : ℚ) ≤ (e - s) / 60 := by
        rw [le_div_iff₀ (by norm_num : (0:ℚ) < 60)]
        exact_mod_cast h4
      have h2 : (k : ℤ) ≤ ⌊(e - s) / 60⌋ := Int.le_floor.mpr h3
      have hfl : (0 : ℤ) ≤ ⌊(e - s) / 60⌋ := Int.floor_nonneg.mpr (div_nonneg (by linarith) (by norm_num))
      omega

/-- Claim C1: `build_basal_series` produces the minute-resolution series
on the inclusive grid `{s + 60k | s + 60k ≤ e}`; on every row the plan
rate is the profile lookup at that minute and the actual rate is the left
fold, in overlay insertion order (last write wins), of the per-overlay
overwrite: inside the half-open window `[start, start + duration)` the
absolute rate when present (non-NaN), else `plan × percent / 100` when
percent is present, starting from `actual = plan`. -/
theorem claim_C1_basal_reconciler (plan : List (ℤ × ℚ)) (temps : List TempRec) (s e : ℚ) :
    (∀ τ : ℚ, τ ∈ (build_basal_series plan temps s e).map (fun p => p.1.t) ↔
        ∃ k : ℕ, τ = s + 60 * (k : ℚ) ∧ τ ≤ e) ∧
    (∀ p ∈ build_basal_series plan temps s e,
        p.1.plan = planAt plan p.1.t ∧
        p.1.actual = temps.foldl
          (fun cur tp => overlayStep tp p.1.t (planAt plan p.1.t) cur)
          (planAt plan p.1.t)) := by
  have hmap : (build_basal_series plan temps s e).map (fun p => p.1.t) = gridTimes s e := by
    unfold build_basal_series
    rw [foldl_applyTemp]
    simp only [List.map_map]
    rw [List.map_congr_left (fun τ' _ => ?_), List.map_id]
    show ((temps.foldl (fun r tp => overlayRow tp r)
      (⟨τ', planAt plan τ', planAt plan τ'⟩ : BRow))).t = τ'
    exact (rowFold temps _).1
  constructor
  · intro τ
    rw [hmap, mem_gridTimes]
  · intro p hp
    unfold build_basal_series at hp
    rw [foldl_applyTemp] at hp
    simp only [List.map_map, List.mem_map] at hp
    obtain ⟨τ', hτ', rfl⟩ := hp
    simp only [Function.comp_apply]
    obtain ⟨ht, hpl, ha⟩ := rowFold temps (⟨τ', planAt plan τ', planAt plan τ'⟩ : BRow)
    refine ⟨?_, ?_⟩ <;> simp only [ht, hpl, ha]

/-- Witness for C1: the grid characterization at instant 0 and the row
characterization for the single minute of a concrete overridden series. -/
theorem claim_C1_witness :
    ((0 : ℚ) ∈ (build_basal_series [(0, 1)] [⟨0, 30, none, some (1 / 5)⟩] 0 0).map
        (fun p => p.1.t) ↔ ∃ k : ℕ, (0 : ℚ) = 0 + 60 * (k : ℚ) ∧ (0 : ℚ) ≤ 0) ∧
    ((((⟨0, 1, 1 / 5⟩ : BRow), true)).1.plan =
        planAt [(0, 1)] (((⟨0, 1, 1 / 5⟩ : BRow), true)).1.t ∧
      (((⟨0, 1, 1 / 5⟩ : BRow), true)).1.actual =
        [(⟨0, 30, none, some (1 / 5)⟩ : TempRec)].foldl
          (fun cur tp => overlayStep tp (((⟨0, 1, 1 / 5⟩ : BRow), true)).1.t
            (planAt [(0, 1)] (((⟨0, 1, 1 / 5⟩ : BRow), true)).1.t) cur)
          (planAt [(0, 1)] (((⟨0, 1, 1 / 5⟩ : BRow), true)).1.t)) :=
  ⟨(claim_C1_basal_reconciler [(0, 1)] [⟨0, 30, none, some (1 / 5)⟩] 0 0).1 0,
   (claim_C1_basal_reconciler [(0, 1)] [⟨0, 30, none, some (1 / 5)⟩] 0 0).2
     ((⟨0, 1, 1 / 5⟩ : BRow), true)
     (by norm_num [build_basal_series, gridTimes, gridLen, List.range_succ, planAt,
       current_plan_basal, todSecs, scanKeys, planGet, applyTemp, overlayRow])⟩

end NightscoutCore
